import Mathlib

/-!
Verification of the Recipe Explorer backend (`src/backend/src/api`).

The development shallowly embeds the persisted state (tables `users`,
`recipes` and the `favorites` join table from `models.py`) and the request
handlers of `main.py` as pure Lean functions threading an explicit `State`.
Password hashing is an external collaborator (passlib/bcrypt), so the
operations that use it are parametrised by a hash function
`hash : String → String`; `verify_password` succeeds exactly when the hash
of the supplied plaintext equals the stored hash, mirroring
`pwd_context.verify`.  Creation timestamps (`created_at`) are wall-clock
values supplied by the environment and are not modelled; no handler reads
them.  Database-assigned integer primary keys are modelled as
`max existing id + 1` (SQLite rowid assignment with no deletions).
-/

namespace RecipeExplorer

/-- A row of the `recipes` table (`models.py`, class `Recipe`), without the
unmodelled `created_at` timestamp.  All columns except `id` and `title`
are nullable. -/
structure Recipe where
  id : Nat
  title : String
  description : Option String
  ingredients : Option String
  instructions : Option String
  image_url : Option String
  category : Option String
deriving Repr, DecidableEq

/-- A row of the `users` table (`models.py`, class `User`), without the
unmodelled `created_at` timestamp. -/
structure User where
  id : Nat
  username : String
  hashed_password : String
deriving Repr, DecidableEq

/-- The request body of `POST /recipes` (`schemas.py`, `RecipeCreate`):
all recipe columns except the server-assigned `id`. -/
structure RecipeCreate where
  title : String
  description : Option String
  ingredients : Option String
  instructions : Option String
  image_url : Option String
  category : Option String
deriving Repr, DecidableEq

/-- The response body of `POST /register` (`schemas.py`, `UserRead`):
only `username` and `id`; by construction it has no password field. -/
structure UserRead where
  username : String
  id : Nat
deriving Repr, DecidableEq

/-- A FastAPI `HTTPException`: status code plus detail message. -/
structure HTTPError where
  status_code : Nat
  detail : String
deriving Repr, DecidableEq

/-- The response body of `POST /token` (`schemas.py`, `Token`). -/
structure Token where
  access_token : String
  token_type : String
deriving Repr, DecidableEq

/-- The persisted database state: the three tables of `models.py`.
A favorite association is a `(user_id, recipe_id)` pair in the join
table `favorites`, which carries no uniqueness constraint. -/
structure State where
  users : List User
  recipes : List Recipe
  favorites : List (Nat × Nat)
deriving Repr, DecidableEq

/-- The empty database produced by `init_db` on first startup. -/
def initState : State := ⟨[], [], []⟩

/-- SQLite-assigned primary key for a new `recipes` row: one more than the
largest existing id (rows are never deleted). -/
def nextRecipeId (s : State) : Nat := (s.recipes.map Recipe.id).foldr max 0 + 1

/-- SQLite-assigned primary key for a new `users` row. -/
def nextUserId (s : State) : Nat := (s.users.map User.id).foldr max 0 + 1

/-- SQL `lower` applied to a string, as the list of its lowered characters. -/
def lowerChars (s : String) : List Char := s.toList.map Char.toLower

/-- SQL `LIKE` matching of a string against a pattern, both given as
(lowered) character lists: `%` matches any sequence of characters, `_`
matches exactly one character, and every other pattern character matches
itself (the handler uses no `ESCAPE` clause). -/
def likeMatch : List Char → List Char → Bool
  | [], s => s.isEmpty
  | ch :: ps, s =>
    if ch = '%' then s.tails.any (fun t => likeMatch ps t)
    else
      match s with
      | [] => false
      | c :: cs => (if ch = '_' then true else ch == c) && likeMatch ps cs

/-- `Recipe.title.ilike(f"%\x7bq\x7d%")` (`main.py` line 94): SQL
case-insensitive `LIKE` of the title against the query interpolated
un-escaped between two `%` wildcards.  Wildcard characters inside `q`
stay live, exactly as in the generated SQL. -/
def ilike (title q : String) : Bool :=
  likeMatch (lowerChars ("%" ++ q ++ "%")) (lowerChars title)

/-- Python truthiness of an optional string parameter: `None` and `""` are
falsy (`if q:` at `main.py` lines 93 and 95). -/
def truthy : Option String → Bool
  | none => false
  | some s => s != ""

/-- Descending-id ordering used by `query.order_by(Recipe.id.desc())`. -/
def sortByIdDesc (l : List Recipe) : List Recipe :=
  l.insertionSort (fun a b => b.id ≤ a.id)

/-- Handler `list_or_search_recipes` (`GET /recipes`, `main.py` 83-98):
filter by title substring when `q` is truthy, by exact category equality
when `category` is truthy (SQL `=` against a NULL category is not true),
then order by descending id. -/
def list_or_search_recipes (s : State) (q category : Option String) : List Recipe :=
  let l1 := s.recipes
  let l2 := if truthy q then l1.filter (fun r => ilike r.title (q.getD "")) else l1
  let l3 := if truthy category then
      l2.filter (fun r => r.category == some (category.getD "")) else l2
  sortByIdDesc l3

/-- Handler `get_recipe` (`GET /recipes/\x7brecipe_id\x7d`, `main.py` 101-109). -/
def get_recipe (s : State) (recipe_id : Nat) : Except HTTPError Recipe :=
  match s.recipes.find? (fun r => r.id == recipe_id) with
  | none => .error ⟨404, "Recipe not found"⟩
  | some r => .ok r

/-- Handler `create_recipe` (`POST /recipes`, `main.py` 112-121): insert a
new row with a server-assigned id; no duplicate-title check. -/
def create_recipe (s : State) (rc : RecipeCreate) : Recipe × State :=
  let r : Recipe :=
    ⟨nextRecipeId s, rc.title, rc.description, rc.ingredients, rc.instructions,
      rc.image_url, rc.category⟩
  (r, { s with recipes := s.recipes ++ [r] })

/-- `get_password_hash` (`main.py` 61-62), with the bcrypt context as the
`hash` parameter. -/
def get_password_hash (hash : String → String) (password : String) : String :=
  hash password

/-- `verify_password` (`main.py` 64-65): the supplied plaintext verifies
against a stored hash exactly when its hash equals the stored hash. -/
def verify_password (hash : String → String) (plain hashed : String) : Bool :=
  hash plain == hashed

/-- Handler `register_user` (`POST /register`, `main.py` 127-140). -/
def register_user (hash : String → String) (s : State) (username password : String) :
    Except HTTPError UserRead × State :=
  match s.users.find? (fun u => u.username == username) with
  | some _ => (.error ⟨400, "Username already registered"⟩, s)
  | none =>
    let nu : User := ⟨nextUserId s, username, get_password_hash hash password⟩
    (.ok ⟨nu.username, nu.id⟩, { s with users := s.users ++ [nu] })

/-- `authenticate_user` (`main.py` 67-71): find the user by username and
verify the password; `none` on unknown username or failed verification. -/
def authenticate_user (hash : String → String) (s : State) (username password : String) :
    Option User :=
  match s.users.find? (fun u => u.username == username) with
  | none => none
  | some u => if verify_password hash password u.hashed_password then some u else none

/-- Handler `login` (`POST /token`, `main.py` 143-158): one fixed 401 error
for any authentication failure, a stub token on success. -/
def login (hash : String → String) (s : State) (username password : String) :
    Except HTTPError Token :=
  match authenticate_user hash s username password with
  | none => .error ⟨401, "Incorrect username or password"⟩
  | some u => .ok ⟨u.username ++ "-token-demo", "bearer"⟩

/-- `db.query(User).filter(User.id == user_id).first()` is not `None`. -/
def userExists (s : State) (user_id : Nat) : Bool :=
  s.users.any (fun u => u.id == user_id)

/-- `db.query(Recipe).filter(Recipe.id == recipe_id).first()` is not `None`. -/
def recipeExists (s : State) (recipe_id : Nat) : Bool :=
  s.recipes.any (fun r => r.id == recipe_id)

/-- Handler `add_to_favorites` (`POST /favorites/\x7brecipe_id\x7d`,
`main.py` 163-180): 404 unless both ids resolve; membership check on the
join table (`recipe in user.favorites`) before inserting one `(user_id,
recipe_id)` row. -/
def add_to_favorites (s : State) (recipe_id user_id : Nat) :
    Except HTTPError String × State :=
  if !userExists s user_id || !recipeExists s recipe_id then
    (.error ⟨404, "User or Recipe not found"⟩, s)
  else if (user_id, recipe_id) ∈ s.favorites then
    (.ok "Already favorited", s)
  else
    (.ok "Recipe added to favorites",
      { s with favorites := s.favorites ++ [(user_id, recipe_id)] })

/-- Handler `remove_from_favorites` (`DELETE /favorites/\x7brecipe_id\x7d`,
`main.py` 183-200): 404 unless both ids resolve; if the pair is a favorite,
`user.favorites.remove(recipe)` makes the unit of work emit a DELETE of the
association rows keyed by the pair (modelled as filtering the pair out). -/
def remove_from_favorites (s : State) (recipe_id user_id : Nat) :
    Except HTTPError String × State :=
  if !userExists s user_id || !recipeExists s recipe_id then
    (.error ⟨404, "User or Recipe not found"⟩, s)
  else if (user_id, recipe_id) ∈ s.favorites then
    (.ok "Recipe removed from favorites",
      { s with favorites := s.favorites.filter (fun p => p != (user_id, recipe_id)) })
  else
    (.ok "Recipe not in favorites", s)

/-- The recipes the ORM relationship `user.favorites` resolves to: the join
rows for this user, each dereferenced to its recipe row. -/
def favoritesOf (s : State) (user_id : Nat) : List Recipe :=
  (s.favorites.filter (fun p => p.1 == user_id)).filterMap
    (fun p => s.recipes.find? (fun r => r.id == p.2))

/-- Handler `get_favorites` (`GET /users/\x7buser_id\x7d/favorites`,
`main.py` 203-211). -/
def get_favorites (s : State) (user_id : Nat) : Except HTTPError (List Recipe) :=
  if userExists s user_id then .ok (favoritesOf s user_id)
  else .error ⟨404, "User not found"⟩

/-- The number of favorite rows of one user: `len(user.favorites)`. -/
def favCount (s : State) (user_id : Nat) : Nat :=
  (s.favorites.filter (fun p => p.1 == user_id)).length

/-- One inbound request, covering every endpoint of `main.py`. -/
inductive Op where
  | search (q category : Option String)
  | getOne (recipe_id : Nat)
  | create (rc : RecipeCreate)
  | registerU (username password : String)
  | loginU (username password : String)
  | addFav (recipe_id user_id : Nat)
  | removeFav (recipe_id user_id : Nat)
  | listFav (user_id : Nat)
  | health
deriving Repr, DecidableEq

/-- The persisted state after one request is handled (GET handlers and
`login` perform no writes). -/
def stepOp (hash : String → String) (s : State) : Op → State
  | .search _ _ => s
  | .getOne _ => s
  | .create rc => (create_recipe s rc).2
  | .registerU un pw => (register_user hash s un pw).2
  | .loginU _ _ => s
  | .addFav rid uid => (add_to_favorites s rid uid).2
  | .removeFav rid uid => (remove_from_favorites s rid uid).2
  | .listFav _ => s
  | .health => s

/-- States reachable by sequentially executing requests from the empty
initial database. -/
inductive Reachable (hash : String → String) : State → Prop where
  | init : Reachable hash initState
  | step {s : State} (op : Op) : Reachable hash s → Reachable hash (stepOp hash s op)

/-! ### Helper lemmas -/

theorem userExists_iff (s : State) (i : Nat) :
    userExists s i = true ↔ ∃ u ∈ s.users, u.id = i := by
  simp [userExists, List.any_eq_true]

theorem recipeExists_iff (s : State) (i : Nat) :
    recipeExists s i = true ↔ ∃ r ∈ s.recipes, r.id = i := by
  simp [recipeExists, List.any_eq_true]

/-- The users and recipes tables are untouched by the favorites handlers,
and the favorites rows after `add_to_favorites` are the old rows or the old
rows with the requested pair appended once (only when it was absent). -/
theorem add_to_favorites_state (s : State) (rid uid : Nat) :
    ((add_to_favorites s rid uid).2.users = s.users
      ∧ (add_to_favorites s rid uid).2.recipes = s.recipes)
    ∧ ((add_to_favorites s rid uid).2.favorites = s.favorites
      ∨ ((uid, rid) ∉ s.favorites
         ∧ (add_to_favorites s rid uid).2.favorites = s.favorites ++ [(uid, rid)])) := by
  unfold add_to_favorites
  split_ifs with h1 h2 <;> simp_all

theorem remove_from_favorites_state (s : State) (rid uid : Nat) :
    ((remove_from_favorites s rid uid).2.users = s.users
      ∧ (remove_from_favorites s rid uid).2.recipes = s.recipes)
    ∧ ((remove_from_favorites s rid uid).2.favorites = s.favorites
      ∨ (remove_from_favorites s rid uid).2.favorites
          = s.favorites.filter (fun p => p != (uid, rid))) := by
  unfold remove_from_favorites
  split_ifs with h1 h2 <;> simp_all

theorem register_user_state (hash : String → String) (s : State) (un pw : String) :
    ((register_user hash s un pw).2.recipes = s.recipes
      ∧ (register_user hash s un pw).2.favorites = s.favorites)
    ∧ ((register_user hash s un pw).2.users = s.users
      ∨ (register_user hash s un pw).2.users
          = s.users ++ [⟨nextUserId s, un, hash pw⟩]) := by
  unfold register_user
  cases hf : s.users.find? (fun u => u.username == un) <;>
    simp [hf, get_password_hash]

/-- Every request handler preserves duplicate-freedom of the favorites
join table: the only insertion into it is guarded by the membership check
of `add_to_favorites`. -/
theorem stepOp_nodup (hash : String → String) (s : State) (op : Op)
    (h : s.favorites.Nodup) : (stepOp hash s op).favorites.Nodup := by
  cases op with
  | addFav rid uid =>
    rcases (add_to_favorites_state s rid uid).2 with heq | ⟨hmem, heq⟩
    · simpa [stepOp, heq] using h
    · rw [stepOp, heq, List.nodup_append]
      exact ⟨h, List.nodup_singleton _, by
        intro a ha hb
        rw [List.mem_singleton] at hb
        exact hmem (hb ▸ ha)⟩
  | removeFav rid uid =>
    rcases (remove_from_favorites_state s rid uid).2 with heq | heq
    · simpa [stepOp, heq] using h
    · rw [stepOp, heq]
      exact h.filter _
  | registerU un pw =>
    simpa [stepOp, (register_user_state hash s un pw).1.2] using h
  | create rc => simpa [stepOp, create_recipe] using h
  | search q c => simpa [stepOp] using h
  | getOne i => simpa [stepOp] using h
  | loginU un pw => simpa [stepOp] using h
  | listFav i => simpa [stepOp] using h
  | health => simpa [stepOp] using h

theorem count_le_one_of_nodup {α : Type} [BEq α] [LawfulBEq α] {l : List α}
    (h : l.Nodup) (a : α) : l.count a ≤ 1 := by
  induction l with
  | nil => simp
  | cons b t ih =>
    rcases List.nodup_cons.1 h with ⟨hb, ht⟩
    rw [List.count_cons]
    by_cases hab : a = b
    · subst hab
      simp [List.count_eq_zero_of_not_mem hb]
    · simpa [beq_eq_false_iff_ne.2 (Ne.symm hab)] using ih ht

theorem reachable_favorites_nodup (hash : String → String) (s : State)
    (h : Reachable hash s) : s.favorites.Nodup := by
  induction h with
  | init => simp [initState]
  | step op _ ih => exact stepOp_nodup hash _ op ih

/-- A pattern starting with `%` matches exactly the strings with a suffix
matched by the rest of the pattern. -/
theorem likeMatch_percent_cons (ps s : List Char) :
    likeMatch ('%' :: ps) s = true ↔ ∃ t, t <:+ s ∧ likeMatch ps t = true := by
  simp [likeMatch, List.any_eq_true, List.mem_tails]

/-- A wildcard-free pattern followed by `%` matches exactly the strings it
is a prefix of. -/
theorem likeMatch_literal_percent : ∀ (w : List Char), (∀ c ∈ w, c ≠ '%' ∧ c ≠ '_') →
    ∀ s : List Char, (likeMatch (w ++ ['%']) s = true ↔ w <+: s)
  | [], _, s => by
      simp [likeMatch, List.any_eq_true, List.mem_tails]
  | ch :: w', hw, s => by
      have hch := hw ch (List.mem_cons_self _ _)
      have hw' : ∀ x ∈ w', x ≠ '%' ∧ x ≠ '_' := fun x hx => hw x (List.mem_cons_of_mem _ hx)
      cases s with
      | nil => simp [likeMatch, hch.1]
      | cons c cs =>
        have ih := likeMatch_literal_percent w' hw' cs
        simp [likeMatch, hch.1, hch.2, ih, List.cons_prefix_cons]

theorem lowerChars_append (a b : String) :
    lowerChars (a ++ b) = lowerChars a ++ lowerChars b := by
  simp [lowerChars]

/-- On a query whose lowering contains no `LIKE` wildcard, `ilike` is
case-insensitive substring containment. -/
theorem ilike_iff_infix (title q : String)
    (hw : ∀ c ∈ lowerChars q, c ≠ '%' ∧ c ≠ '_') :
    ilike title q = true ↔ lowerChars q <:+: lowerChars title := by
  have hpat : lowerChars ("%" ++ q ++ "%") = '%' :: (lowerChars q ++ ['%']) := by
    rw [lowerChars_append, lowerChars_append]
    rfl
  rw [ilike, hpat, likeMatch_percent_cons]
  constructor
  · rintro ⟨t, ht, hm⟩
    exact List.infix_iff_prefix_suffix.2 ⟨t, (likeMatch_literal_percent _ hw t).1 hm, ht⟩
  · intro h
    rcases List.infix_iff_prefix_suffix.1 h with ⟨t, hpre, hsuf⟩
    exact ⟨t, hsuf, (likeMatch_literal_percent _ hw t).2 hpre⟩

/-- `Char.toLower` only moves basic latin capitals into `a`-`z`, so a
character whose lowering lies below `'a'` was already that character. -/
theorem eq_of_toLower_eq {c d : Char} (h : c.toLower = d) (hd : d.toNat < 97) : c = d := by
  have h' : c.toLower = if c.toNat ≥ 65 ∧ c.toNat ≤ 90 then Char.ofNat (c.toNat + 32) else c :=
    rfl
  rw [h'] at h
  by_cases hc : c.toNat ≥ 65 ∧ c.toNat ≤ 90
  · exfalso
    rw [if_pos hc] at h
    have hv : (c.toNat + 32).isValidChar := Or.inl (by omega)
    have ht : (Char.ofNat (c.toNat + 32)).toNat = c.toNat + 32 := by
      have he : Char.ofNat (c.toNat + 32) = Char.ofNatAux (c.toNat + 32) hv := dif_pos hv
      rw [he]
      rfl
    rw [h] at ht
    omega
  · rw [if_neg hc] at h
    exact h

theorem toLower_eq_percent {c : Char} (h : c.toLower = '%') : c = '%' :=
  eq_of_toLower_eq h (by decide)

theorem toLower_eq_underscore {c : Char} (h : c.toLower = '_') : c = '_' :=
  eq_of_toLower_eq h (by decide)

/-- Lowering never introduces a `LIKE` wildcard character. -/
theorem lowerChars_no_wildcards {q : String} (hp : '%' ∉ q.toList) (hu : '_' ∉ q.toList) :
    ∀ c ∈ lowerChars q, c ≠ '%' ∧ c ≠ '_' := by
  intro c hc
  rcases List.mem_map.1 hc with ⟨c₀, hc₀, rfl⟩
  constructor
  · intro h
    exact hp (toLower_eq_percent h ▸ hc₀)
  · intro h
    exact hu (toLower_eq_underscore h ▸ hc₀)

theorem mem_sortByIdDesc {l : List Recipe} {r : Recipe} :
    r ∈ sortByIdDesc l ↔ r ∈ l := by
  simp [sortByIdDesc, List.mem_insertionSort]

theorem sorted_sortByIdDesc (l : List Recipe) :
    (sortByIdDesc l).Sorted (fun a b => b.id ≤ a.id) := by
  haveI : IsTotal Recipe (fun a b => b.id ≤ a.id) := ⟨fun a b => le_total b.id a.id⟩
  haveI : IsTrans Recipe (fun a b => b.id ≤ a.id) :=
    ⟨fun _ _ _ h1 h2 => le_trans h2 h1⟩
  exact List.sorted_insertionSort _ l

/-! ### Claims -/

/-- C1: in every state reachable by sequentially executing requests from
the empty database, each `(user, recipe)` pair occurs at most once in the
favorites join table — every handler preserves the at-most-once property
because `add_to_favorites` checks membership before inserting. -/
theorem favorites_pair_at_most_once (hash : String → String) (s : State)
    (h : Reachable hash s) (user_id recipe_id : Nat) :
    s.favorites.count (user_id, recipe_id) ≤ 1 :=
  count_le_one_of_nodup (reachable_favorites_nodup hash s h) _

/-- C1 witness: the invariant instantiated at a concrete reachable state,
the empty database after one add-favorite request. -/
theorem favorites_pair_at_most_once_witness :
    (stepOp id initState (Op.addFav 1 1)).favorites.count (1, 1) ≤ 1 :=
  favorites_pair_at_most_once id _ (Reachable.step (Op.addFav 1 1) Reachable.init) 1 1

/-- C2 counterexample: the handler interpolates the query un-escaped into
a SQL `LIKE` pattern, so at query `"_"` the recipe titled "Soup" is
returned (`_` matches any one character) although its title does not
contain `"_"` as a substring — the claim's "exactly the recipes whose
title contains the query text as a case-insensitive substring" is false
of the code for wildcard queries. -/
theorem list_or_search_wildcard_counterexample :
    ((⟨1, "Soup", none, none, none, none, none⟩ : Recipe) ∈
      list_or_search_recipes ⟨[], [⟨1, "Soup", none, none, none, none, none⟩], []⟩
        (some "_") none)
    ∧ ¬ lowerChars "_" <:+: lowerChars "Soup" := by
  constructor
  · decide
  · decide

/-- C2 (amended): for a query free of the SQL `LIKE` wildcard characters
`%` and `_`, and a non-empty query and category, `list_or_search_recipes`
returns exactly the stored recipes whose lowered title contains the
lowered query as a substring AND whose category equals the given category
exactly (case-sensitively); with only one filter given, only that filter
applies; the result is always sorted newest-first by descending id. -/
theorem list_or_search_recipes_correct (s : State) (qs cs : String)
    (hq : qs ≠ "") (hc : cs ≠ "")
    (hw : '%' ∉ qs.toList ∧ '_' ∉ qs.toList) :
    (∀ r : Recipe, r ∈ list_or_search_recipes s (some qs) (some cs) ↔
      r ∈ s.recipes ∧ lowerChars qs <:+: lowerChars r.title ∧ r.category = some cs)
    ∧ (∀ r : Recipe, r ∈ list_or_search_recipes s (some qs) none ↔
      r ∈ s.recipes ∧ lowerChars qs <:+: lowerChars r.title)
    ∧ (∀ r : Recipe, r ∈ list_or_search_recipes s none (some cs) ↔
      r ∈ s.recipes ∧ r.category = some cs)
    ∧ (∀ q category : Option String,
      (list_or_search_recipes s q category).Sorted (fun a b => b.id ≤ a.id)) := by
  have hlike : ∀ t : String, ilike t qs = true ↔ lowerChars qs <:+: lowerChars t :=
    fun t => ilike_iff_infix t qs (lowerChars_no_wildcards hw.1 hw.2)
  refine ⟨fun r => ?_, fun r => ?_, fun r => ?_, fun q category => ?_⟩
  · simp [list_or_search_recipes, hq, hc, truthy, mem_sortByIdDesc,
      List.mem_filter, hlike, and_assoc]
    tauto
  · simp [list_or_search_recipes, hq, truthy, mem_sortByIdDesc,
      List.mem_filter, hlike]
  · simp [list_or_search_recipes, hc, truthy, mem_sortByIdDesc, List.mem_filter]
  · exact sorted_sortByIdDesc _

/-- C2 witness: a recipe titled "Tomato Soup" with category "Dessert" is
returned for the wildcard-free query "tomato" with category "Dessert". -/
theorem list_or_search_recipes_correct_witness :
    (⟨1, "Tomato Soup", none, none, none, none, some "Dessert"⟩ : Recipe) ∈
      list_or_search_recipes
        ⟨[], [⟨1, "Tomato Soup", none, none, none, none, some "Dessert"⟩], []⟩
        (some "tomato") (some "Dessert") :=
  ((list_or_search_recipes_correct
      ⟨[], [⟨1, "Tomato Soup", none, none, none, none, some "Dessert"⟩], []⟩
      "tomato" "Dessert" (by decide) (by decide) ⟨by decide, by decide⟩).1 _).mpr
    ⟨by simp, by decide, rfl⟩

/-- C10: an empty-string query or category behaves exactly like an absent
parameter (the handler tests truthiness, and `""` is falsy), and with both
empty the full recipe list is returned. -/
theorem empty_string_filters_ignored (s : State) (q category : Option String) :
    list_or_search_recipes s (some "") category = list_or_search_recipes s none category
    ∧ list_or_search_recipes s q (some "") = list_or_search_recipes s q none
    ∧ (∀ r : Recipe,
        r ∈ list_or_search_recipes s (some "") (some "") ↔ r ∈ s.recipes) := by
  have h : truthy (some "") = false := rfl
  refine ⟨?_, ?_, fun r => ?_⟩
  · simp [list_or_search_recipes, h, truthy]
  · simp [list_or_search_recipes, h, truthy]
  · simp [list_or_search_recipes, h, truthy, mem_sortByIdDesc]

theorem add_to_favorites_spec (s : State) (rid uid : Nat)
    (hu : userExists s uid = true) (hr : recipeExists s rid = true) :
    ((uid, rid) ∈ s.favorites →
      add_to_favorites s rid uid = (.ok "Already favorited", s))
    ∧ ((uid, rid) ∉ s.favorites →
      add_to_favorites s rid uid = (.ok "Recipe added to favorites",
        { s with favorites := s.favorites ++ [(uid, rid)] })) := by
  unfold add_to_favorites
  constructor <;> intro hmem <;> simp [hu, hr, hmem]

theorem remove_from_favorites_spec (s : State) (rid uid : Nat)
    (hu : userExists s uid = true) (hr : recipeExists s rid = true) :
    ((uid, rid) ∈ s.favorites →
      remove_from_favorites s rid uid = (.ok "Recipe removed from favorites",
        { s with favorites := s.favorites.filter (fun p => p != (uid, rid)) }))
    ∧ ((uid, rid) ∉ s.favorites →
      remove_from_favorites s rid uid = (.ok "Recipe not in favorites", s)) := by
  unfold remove_from_favorites
  constructor <;> intro hmem <;> simp [hu, hr, hmem]

/-- C3: adding a favorite is idempotent for an existing user and recipe.
If the pair is already favorited, the handler answers with the no-op
message and leaves the state untouched; running add twice leaves the same
state as running it once, the second call answering with the no-op
message; and after one add the pair occurs exactly once (starting from a
duplicate-free join table). -/
theorem add_to_favorites_idempotent (s : State) (rid uid : Nat)
    (hu : userExists s uid = true) (hr : recipeExists s rid = true)
    (hnd : s.favorites.Nodup) :
    ((uid, rid) ∈ s.favorites →
      add_to_favorites s rid uid = (.ok "Already favorited", s))
    ∧ (add_to_favorites (add_to_favorites s rid uid).2 rid uid).2
        = (add_to_favorites s rid uid).2
    ∧ (add_to_favorites (add_to_favorites s rid uid).2 rid uid).1
        = .ok "Already favorited"
    ∧ (add_to_favorites s rid uid).2.favorites.count (uid, rid) = 1 := by
  have hspec := add_to_favorites_spec s rid uid hu hr
  by_cases hmem : (uid, rid) ∈ s.favorites
  · have h1 := hspec.1 hmem
    have hu1 : userExists (add_to_favorites s rid uid).2 uid = true := by
      rw [h1]; exact hu
    have hr1 : recipeExists (add_to_favorites s rid uid).2 rid = true := by
      rw [h1]; exact hr
    have hmem1 : (uid, rid) ∈ (add_to_favorites s rid uid).2.favorites := by
      rw [h1]; exact hmem
    have h2 := (add_to_favorites_spec _ rid uid hu1 hr1).1 hmem1
    refine ⟨fun _ => h1, by rw [h2], by rw [h2], ?_⟩
    rw [h1]
    exact le_antisymm (count_le_one_of_nodup hnd _) (List.count_pos_iff.2 hmem)
  · have h1 := hspec.2 hmem
    have hu1 : userExists (add_to_favorites s rid uid).2 uid = true := by
      rw [h1]; exact hu
    have hr1 : recipeExists (add_to_favorites s rid uid).2 rid = true := by
      rw [h1]; exact hr
    have hmem1 : (uid, rid) ∈ (add_to_favorites s rid uid).2.favorites := by
      rw [h1]; simp
    have h2 := (add_to_favorites_spec _ rid uid hu1 hr1).1 hmem1
    refine ⟨fun hm => absurd hm hmem, by rw [h2], by rw [h2], ?_⟩
    rw [h1]
    simp [List.count_append, List.count_eq_zero_of_not_mem hmem]

/-- C3 witness: one user, one recipe, empty favorites. -/
theorem add_to_favorites_idempotent_witness :
    (add_to_favorites
        (add_to_favorites ⟨[⟨1, "alice", "h"⟩],
          [⟨1, "Soup", none, none, none, none, none⟩], []⟩ 1 1).2 1 1).2
      = (add_to_favorites ⟨[⟨1, "alice", "h"⟩],
          [⟨1, "Soup", none, none, none, none, none⟩], []⟩ 1 1).2 :=
  (add_to_favorites_idempotent
    ⟨[⟨1, "alice", "h"⟩], [⟨1, "Soup", none, none, none, none, none⟩], []⟩
    1 1 (by decide) (by decide) (by decide)).2.1

/-- C4: `add_to_favorites` and `remove_from_favorites` answer 404 exactly
when the user id or the recipe id resolves to no row, and `get_favorites`
answers 404 exactly when the user id resolves to no row; on a 404 of the
mutating handlers the persisted state is returned unchanged
(`get_favorites` performs no write at all, as its type shows). -/
theorem favorites_notfound_iff (s : State) (rid uid : Nat) :
    ((add_to_favorites s rid uid).1 = .error ⟨404, "User or Recipe not found"⟩ ↔
      ¬((∃ u ∈ s.users, u.id = uid) ∧ (∃ r ∈ s.recipes, r.id = rid)))
    ∧ ((add_to_favorites s rid uid).1 = .error ⟨404, "User or Recipe not found"⟩ →
      (add_to_favorites s rid uid).2 = s)
    ∧ ((remove_from_favorites s rid uid).1 = .error ⟨404, "User or Recipe not found"⟩ ↔
      ¬((∃ u ∈ s.users, u.id = uid) ∧ (∃ r ∈ s.recipes, r.id = rid)))
    ∧ ((remove_from_favorites s rid uid).1 = .error ⟨404, "User or Recipe not found"⟩ →
      (remove_from_favorites s rid uid).2 = s)
    ∧ (get_favorites s uid = .error ⟨404, "User not found"⟩ ↔
      ¬∃ u ∈ s.users, u.id = uid) := by
  simp only [← userExists_iff, ← recipeExists_iff]
  unfold add_to_favorites remove_from_favorites get_favorites
  by_cases hu : userExists s uid <;> by_cases hr : recipeExists s rid <;>
    simp [hu, hr] <;> split_ifs <;> all_goals simp_all

/-- C4 witness: adding a favorite for an unknown recipe id leaves the
state unchanged. -/
theorem favorites_notfound_iff_witness :
    (add_to_favorites ⟨[⟨1, "alice", "h"⟩], [], []⟩ 1 1).2
      = ⟨[⟨1, "alice", "h"⟩], [], []⟩ :=
  (favorites_notfound_iff ⟨[⟨1, "alice", "h"⟩], [], []⟩ 1 1).2.1 rfl

theorem perm_cons_filter_ne {l : List (Nat × Nat)} {a : Nat × Nat}
    (hnd : l.Nodup) (h : a ∈ l) :
    l.Perm (a :: l.filter (fun p => p != a)) := by
  induction l with
  | nil => cases h
  | cons b t ih =>
    rcases List.nodup_cons.1 hnd with ⟨hb, ht⟩
    rcases List.mem_cons.1 h with rfl | hmem
    · have hft : t.filter (fun p => p != a) = t :=
        List.filter_eq_self.2 fun p hp => bne_iff_ne.2 fun he => hb (he ▸ hp)
      simp [List.filter_cons, hft]
    · have hba : (b != a) = true := bne_iff_ne.2 fun he => hb (he ▸ hmem)
      simp only [List.filter_cons, hba, if_true]
      exact ((ih ht hmem).cons b).trans (List.Perm.swap a b _)
/-- C5: for an existing user and recipe, removing a favorited pair
answers the success message, removes the association (the pair is gone and
the user's favorites count drops by exactly one), while removing a
non-favorited pair answers the "not in favorites" message and changes
nothing. -/
theorem remove_from_favorites_correct (s : State) (rid uid : Nat)
    (hu : userExists s uid = true) (hr : recipeExists s rid = true)
    (hnd : s.favorites.Nodup) :
    ((uid, rid) ∈ s.favorites →
      (remove_from_favorites s rid uid).1 = .ok "Recipe removed from favorites"
      ∧ (uid, rid) ∉ (remove_from_favorites s rid uid).2.favorites
      ∧ favCount (remove_from_favorites s rid uid).2 uid + 1 = favCount s uid)
    ∧ ((uid, rid) ∉ s.favorites →
      remove_from_favorites s rid uid = (.ok "Recipe not in favorites", s)) := by
  have hspec := remove_from_favorites_spec s rid uid hu hr
  refine ⟨fun hmem => ?_, hspec.2⟩
  have h1 := hspec.1 hmem
  rw [h1]
  refine ⟨rfl, by simp [List.mem_filter], ?_⟩
  have hperm := perm_cons_filter_ne hnd hmem
  have hcount := hperm.countP_eq (fun p : Nat × Nat => p.1 == uid)
  unfold favCount
  simp only [← List.countP_eq_length_filter]
  rw [hcount, List.countP_cons]
  simp

/-- C5 witness: removing the only favorite of user 1 answers the success
message. -/
theorem remove_from_favorites_correct_witness :
    (remove_from_favorites ⟨[⟨1, "alice", "h"⟩],
        [⟨1, "Soup", none, none, none, none, none⟩], [(1, 1)]⟩ 1 1).1
      = .ok "Recipe removed from favorites" :=
  ((remove_from_favorites_correct
      ⟨[⟨1, "alice", "h"⟩], [⟨1, "Soup", none, none, none, none, none⟩], [(1, 1)]⟩
      1 1 (by decide) (by decide) (by decide)).1 (by decide)).1

/-- C6: with distinct usernames (the `users.username` column carries a
unique constraint), authentication yields a user exactly when an account
with the supplied username exists whose stored hash is the hash of the
supplied password; any failure — unknown username or wrong password —
makes `login` answer the one fixed 401 error, so the two causes are
indistinguishable in the response. -/
theorem authenticate_user_correct (hash : String → String) (s : State) (un pw : String)
    (hnd : (s.users.map User.username).Nodup) :
    (∀ u : User, authenticate_user hash s un pw = some u ↔
      u ∈ s.users ∧ u.username = un ∧ hash pw = u.hashed_password)
    ∧ (authenticate_user hash s un pw = none →
      login hash s un pw = .error ⟨401, "Incorrect username or password"⟩) := by
  constructor
  · intro u
    constructor
    · intro h
      unfold authenticate_user at h
      cases hf : s.users.find? (fun v => v.username == un) with
      | none => rw [hf] at h; cases h
      | some v =>
        rw [hf] at h
        dsimp only at h
        by_cases hv : verify_password hash pw v.hashed_password
        · rw [if_pos hv] at h
          obtain rfl : v = u := by simpa using h
          refine ⟨List.mem_of_find?_eq_some hf, by simpa using List.find?_some hf, ?_⟩
          simpa [verify_password] using hv
        · rw [if_neg hv] at h; cases h
    · rintro ⟨hm, hun, hh⟩
      unfold authenticate_user
      cases hf : s.users.find? (fun v => v.username == un) with
      | none =>
        exfalso
        have := List.find?_eq_none.1 hf u hm
        simp [hun] at this
      | some v =>
        have hvm := List.mem_of_find?_eq_some hf
        have hvu : v.username = un := by simpa using List.find?_some hf
        obtain rfl : v = u :=
          List.inj_on_of_nodup_map hnd hvm hm (by rw [hvu, hun])
        simp [verify_password, hh]
  · intro h
    unfold login
    rw [h]

/-- C6 witness: a registered user with a matching password authenticates. -/
theorem authenticate_user_correct_witness :
    authenticate_user id ⟨[⟨1, "alice", "pw1"⟩], [], []⟩ "alice" "pw1"
      = some ⟨1, "alice", "pw1"⟩ :=
  ((authenticate_user_correct id ⟨[⟨1, "alice", "pw1"⟩], [], []⟩ "alice" "pw1"
      (by decide)).1 _).mpr ⟨List.mem_singleton_self _, rfl, rfl⟩

/-- C7: registration answers 400 exactly when the username is taken,
leaving the state unchanged; otherwise it appends one user whose stored
credential is the hash of the password (never the plaintext), and answers
with the `UserRead` projection, which carries only username and id. -/
theorem register_user_correct (hash : String → String) (s : State) (un pw : String) :
    ((∃ u ∈ s.users, u.username = un) →
      register_user hash s un pw = (.error ⟨400, "Username already registered"⟩, s))
    ∧ ((¬∃ u ∈ s.users, u.username = un) →
      register_user hash s un pw = (.ok ⟨un, nextUserId s⟩,
        { s with users := s.users ++ [⟨nextUserId s, un, hash pw⟩] })) := by
  constructor <;> intro h <;> unfold register_user <;>
    cases hf : s.users.find? (fun u => u.username == un)
  · exfalso
    obtain ⟨u, hm, hu⟩ := h
    have := List.find?_eq_none.1 hf u hm
    simp [hu] at this
  · simp
  · simp [get_password_hash]
  · exfalso
    exact h ⟨_, List.mem_of_find?_eq_some hf, by simpa using List.find?_some hf⟩

/-- C7 witness: registering on the empty database stores the hashed
password and answers the password-free user representation. -/
theorem register_user_correct_witness :
    register_user id initState "alice" "pw1"
      = (.ok ⟨"alice", 1⟩, ⟨[⟨1, "alice", "pw1"⟩], [], []⟩) :=
  (register_user_correct id initState "alice" "pw1").2 (by simp [initState])

theorem le_foldr_max {l : List Nat} {a : Nat} (h : a ∈ l) : a ≤ l.foldr max 0 := by
  induction l with
  | nil => cases h
  | cons b t ih =>
    rcases List.mem_cons.1 h with rfl | h
    · exact le_max_left _ _
    · exact le_trans (ih h) (le_max_right _ _)

theorem id_lt_nextRecipeId {s : State} {r : Recipe} (h : r ∈ s.recipes) :
    r.id < nextRecipeId s :=
  Nat.lt_succ_of_le (le_foldr_max (List.mem_map_of_mem Recipe.id h))

/-- C8: creating a recipe assigns the next free id and stores the input
fields unchanged (no duplicate-title check can block it — the handler is
total); fetching that id afterwards returns exactly the created recipe;
and fetching any id answers 404 exactly when no stored recipe has it. -/
theorem create_then_get_correct (s : State) (rc : RecipeCreate) :
    (create_recipe s rc).1 = ⟨nextRecipeId s, rc.title, rc.description,
      rc.ingredients, rc.instructions, rc.image_url, rc.category⟩
    ∧ get_recipe (create_recipe s rc).2 (create_recipe s rc).1.id
        = .ok (create_recipe s rc).1
    ∧ (∀ i : Nat, get_recipe s i = .error ⟨404, "Recipe not found"⟩ ↔
        ∀ r ∈ s.recipes, r.id ≠ i) := by
  refine ⟨rfl, ?_, fun i => ?_⟩
  · have hnone : s.recipes.find? (fun r => r.id == nextRecipeId s) = none :=
      List.find?_eq_none.2 fun r hr => by
        simp [Nat.ne_of_lt (id_lt_nextRecipeId hr)]
    simp [create_recipe, get_recipe, List.find?_append, hnone]
  · constructor
    · intro he
      cases hf : s.recipes.find? (fun r => r.id == i) with
      | none =>
        intro r hr hri
        have := List.find?_eq_none.1 hf r hr
        simp [hri] at this
      | some v =>
        exfalso
        unfold get_recipe at he
        rw [hf] at he
        simp at he
    · intro hall
      unfold get_recipe
      cases hf : s.recipes.find? (fun r => r.id == i) with
      | none => rfl
      | some v =>
        exfalso
        exact hall v (List.mem_of_find?_eq_some hf) (by simpa using List.find?_some hf)

/-- C8 witness: fetching an id that resolves to no recipe answers 404. -/
theorem create_then_get_correct_witness :
    get_recipe initState 7 = .error ⟨404, "Recipe not found"⟩ :=
  ((create_then_get_correct initState
      ⟨"Soup", none, none, none, none, none⟩).2.2 7).mpr (by simp [initState])

/-- C9: no request updates or deletes an existing user or recipe row —
after any request the old rows form a prefix of the new ones — and the
favorites handlers touch nothing but the membership of the single
requested `(user, recipe)` pair: users, recipes, and the multiplicity of
every other pair in the join table are unchanged. -/
theorem handlers_frame_conditions (hash : String → String) (s : State) :
    (∀ op : Op, s.users <+: (stepOp hash s op).users
      ∧ s.recipes <+: (stepOp hash s op).recipes)
    ∧ (∀ rid uid : Nat,
      (add_to_favorites s rid uid).2.users = s.users
      ∧ (add_to_favorites s rid uid).2.recipes = s.recipes
      ∧ (remove_from_favorites s rid uid).2.users = s.users
      ∧ (remove_from_favorites s rid uid).2.recipes = s.recipes
      ∧ (∀ p : Nat × Nat, p ≠ (uid, rid) →
          (add_to_favorites s rid uid).2.favorites.count p = s.favorites.count p
          ∧ (remove_from_favorites s rid uid).2.favorites.count p
              = s.favorites.count p)) := by
  constructor
  · intro op
    cases op with
    | create rc =>
      exact ⟨by simp [stepOp, create_recipe], by simp [stepOp, create_recipe]⟩
    | registerU un pw =>
      refine ⟨?_, by simp [stepOp, (register_user_state hash s un pw).1.1]⟩
      rcases (register_user_state hash s un pw).2 with heq | heq <;>
        simp [stepOp, heq]
    | addFav rid uid =>
      exact ⟨by simp [stepOp, (add_to_favorites_state s rid uid).1.1],
        by simp [stepOp, (add_to_favorites_state s rid uid).1.2]⟩
    | removeFav rid uid =>
      exact ⟨by simp [stepOp, (remove_from_favorites_state s rid uid).1.1],
        by simp [stepOp, (remove_from_favorites_state s rid uid).1.2]⟩
    | search q c => exact ⟨List.prefix_refl _, List.prefix_refl _⟩
    | getOne i => exact ⟨List.prefix_refl _, List.prefix_refl _⟩
    | loginU un pw => exact ⟨List.prefix_refl _, List.prefix_refl _⟩
    | listFav i => exact ⟨List.prefix_refl _, List.prefix_refl _⟩
    | health => exact ⟨List.prefix_refl _, List.prefix_refl _⟩
  · intro rid uid
    refine ⟨(add_to_favorites_state s rid uid).1.1,
      (add_to_favorites_state s rid uid).1.2,
      (remove_from_favorites_state s rid uid).1.1,
      (remove_from_favorites_state s rid uid).1.2,
      fun p hp => ⟨?_, ?_⟩⟩
    · rcases (add_to_favorites_state s rid uid).2 with heq | ⟨_, heq⟩ <;> rw [heq]
      rw [List.count_append, List.count_singleton,
        if_neg (by simpa using Ne.symm hp)]
      simp
    · rcases (remove_from_favorites_state s rid uid).2 with heq | heq <;> rw [heq]
      exact List.count_filter (bne_iff_ne.2 hp)

/-- C9 witness: adding the pair (1, 1) leaves the multiplicity of the
pair (2, 2) unchanged. -/
theorem handlers_frame_conditions_witness :
    (add_to_favorites ⟨[⟨1, "alice", "h"⟩],
        [⟨1, "Soup", none, none, none, none, none⟩], []⟩ 1 1).2.favorites.count (2, 2)
      = (List.count (2, 2) []) :=
  (((handlers_frame_conditions id
      ⟨[⟨1, "alice", "h"⟩], [⟨1, "Soup", none, none, none, none, none⟩], []⟩).2
      1 1).2.2.2.2 (2, 2) (by decide)).1

end RecipeExplorer
